import Mathlib

set_option linter.unusedVariables false

/-
Verification model of the rust-workshop-skins-downloader repository.

The embedding covers the parts of the code the claims are about:

* `downloader2_2.cpp`
  - the steamcmd log classifier `parseSteamCmdLog` (lines 296-448),
  - the filesystem move `moveSkinToShared` (lines 259-282) over an abstract
    two-directory-tree filesystem state,
  - the instance worker `workerInstance` (lines 453-594); of the worker only
    the parts that touch the outcome map, the counters and the content
    directories are modelled (script writing, process spawning, sleeps and
    staging cleanup touch no state the claims mention, except for the early
    return when the script file cannot be created, which is modelled by the
    `scriptOk` flag),
  - the input-id extractor `parseIds` (lines 599-617),
  - the chunk partitioner `partition` / `runPass` (lines 622-648),
  - the retry concurrency choice in `main` (lines 827, 869-870).
* `unnamed/part_000` (the appworkshop .acf patcher)
  - `trimStr`, `firstQuotedToken`, `isAllDigits` (lines 104-124),
  - `parseAcf` (lines 252-304),
  - the entry builders (lines 309-331),
  - the content-folder scan that queues missing entries (lines 505-551),
  - the splice into the line vector (lines 596-654).

Filesystem contents, where a claim needs them, are modelled per identifier:
an identifier is in `FSState.instHas` iff the instance-tree directory
`<inst>/steamapps/workshop/content/252490/<id>` contains at least one
non-empty direct-child regular file (the `folderHasFiles` predicate of the
source), and in `FSState.sharedHas` iff the shared-tree directory
`rust_workshop/steamapps/workshop/content/252490/<id>` does.  `fs::rename`
and `fs::copy`+`fs::remove_all` both transfer the identifier's files from
the instance tree to the shared tree; whether each primitive succeeds or
throws is an oracle parameter (`renameOk` / `copyOk`), since that depends on
the host filesystem.
-/

namespace Downloader

/-- Result categories, from `enum class SkinResult` in downloader2_2.cpp. -/
inductive SkinResult where
  | Success
  | Skipped
  | Timeout
  | RateLimit
  | LockFailed
  | ValidationFailed
  | Error
  | Unknown
deriving DecidableEq

/-- Character class of the ECMAScript regex `.`: any character except the
line terminators (only `\r` and `\n` can occur in a line read by getline). -/
def dotChar (c : Char) : Bool := !(c = '\r' || c = '\n')

/-- Match a literal at the head of the input; return the rest on success. -/
def stripLit : List Char → List Char → Option (List Char)
  | [], l => some l
  | _ :: _, [] => none
  | x :: xs, y :: ys => if x = y then stripLit xs ys else none

/-- Match a literal (given in lower case) at the head of the input, ignoring
case, as the `std::regex::icase` patterns do; return the rest on success. -/
def stripLitIcase : List Char → List Char → Option (List Char)
  | [], l => some l
  | _ :: _, [] => none
  | x :: xs, y :: ys => if x = y.toLower then stripLitIcase xs ys else none

/-- Case-sensitive substring test, the semantics of `std::string::find(...)
!= npos` used by the classifier on reason strings and whole lines. -/
def containsLit (lit : List Char) : List Char → Bool
  | [] => (stripLit lit []).isSome
  | l@(_ :: rest) => (stripLit lit l).isSome || containsLit lit rest

/-- Case-insensitive substring test (literal given in lower case). -/
def containsLitIcase (lit : List Char) : List Char → Bool
  | [] => (stripLitIcase lit []).isSome
  | l@(_ :: rest) => (stripLitIcase lit l).isSome || containsLitIcase lit rest

/-- Attempt of the regex
`\[AppID \d+\] Download item (\d+) result : (.+)` at the start of the
input: literal, digits, literal, captured digits, literal, captured
non-empty run of `.`-chars.  Returns (item id, reason). -/
def tryResultAt (l : List Char) : Option (String × String) :=
  match stripLit "[AppID ".data l with
  | none => none
  | some r1 =>
    let d1 := r1.takeWhile Char.isDigit
    if d1.length = 0 then none
    else
      match stripLit "] Download item ".data (r1.drop d1.length) with
      | none => none
      | some r2 =>
        let d2 := r2.takeWhile Char.isDigit
        if d2.length = 0 then none
        else
          match stripLit " result : ".data (r2.drop d2.length) with
          | none => none
          | some r3 =>
            let reason := r3.takeWhile dotChar
            if reason.length = 0 then none
            else some (String.mk d2, String.mk reason)

/-- `std::regex_search` with `reResult`: leftmost successful attempt. -/
def matchResult : List Char → Option (String × String)
  | [] => none
  | l@(_ :: rest) =>
    match tryResultAt l with
    | some p => some p
    | none => matchResult rest

/-- Lazy part `.*?item (\d+)` of `reValidation`: scan forward through
`.`-chars for the first icase "item " followed by at least one digit. -/
def findItemDigits : List Char → Option String
  | [] => none
  | l@(c :: rest) =>
    match stripLitIcase "item ".data l with
    | some r =>
      let d := r.takeWhile Char.isDigit
      if d.length = 0 then (if dotChar c then findItemDigits rest else none)
      else some (String.mk d)
    | none => if dotChar c then findItemDigits rest else none

/-- `std::regex_search` with `reValidation`
(`Staged file validation failed.*?item (\d+)`, icase): leftmost attempt. -/
def matchValidationId : List Char → Option String
  | [] => none
  | l@(_ :: rest) =>
    match (stripLitIcase "staged file validation failed".data l).bind findItemDigits with
    | some s => some s
    | none => matchValidationId rest

/-- Attempt of `Success\. Downloaded item (\d+)` at the start of the input. -/
def trySuccessAt (l : List Char) : Option String :=
  match stripLit "Success. Downloaded item ".data l with
  | none => none
  | some r =>
    let d := r.takeWhile Char.isDigit
    if d.length = 0 then none else some (String.mk d)

/-- `std::regex_search` with `reSuccess`: leftmost successful attempt. -/
def matchSuccessLine : List Char → Option String
  | [] => none
  | l@(_ :: rest) =>
    match trySuccessAt l with
    | some s => some s
    | none => matchSuccessLine rest

/-- Attempt of `ERROR! Download item (\d+) failed \(([^)]+)\)` at the start
of the input.  Returns (item id, reason inside the parentheses). -/
def tryErrorAt (l : List Char) : Option (String × String) :=
  match stripLit "ERROR! Download item ".data l with
  | none => none
  | some r1 =>
    let d := r1.takeWhile Char.isDigit
    if d.length = 0 then none
    else
      match stripLit " failed (".data (r1.drop d.length) with
      | none => none
      | some r2 =>
        let a := r2.takeWhile (fun c => !(c = ')'))
        if a.length = 0 then none
        else
          match (r2.drop a.length).head? with
          | some ch => if ch = ')' then some (String.mk d, String.mk a) else none
          | none => none

/-- `std::regex_search` with `reError`: leftmost successful attempt. -/
def matchErrorLine : List Char → Option (String × String)
  | [] => none
  | l@(_ :: rest) =>
    match tryErrorAt l with
    | some p => some p
    | none => matchErrorLine rest

/-- Attempt of `Timeout downloading item (\d+)` at the start of the input. -/
def tryTimeoutAt (l : List Char) : Option String :=
  match stripLit "Timeout downloading item ".data l with
  | none => none
  | some r =>
    let d := r.takeWhile Char.isDigit
    if d.length = 0 then none else some (String.mk d)

/-- `std::regex_search` with `reTimeout`: leftmost successful attempt. -/
def matchTimeoutLine : List Char → Option String
  | [] => none
  | l@(_ :: rest) =>
    match tryTimeoutAt l with
    | some s => some s
    | none => matchTimeoutLine rest

/-- Attempt of `rate.?limit|too many requests|throttled` (icase) at the
start of the input. -/
def tryRateLimitAt (l : List Char) : Bool :=
  (stripLitIcase "too many requests".data l).isSome ||
  (stripLitIcase "throttled".data l).isSome ||
  (match stripLitIcase "rate".data l with
   | some r =>
     (stripLitIcase "limit".data r).isSome ||
     (match r with
      | c :: r2 => dotChar c && (stripLitIcase "limit".data r2).isSome
      | [] => false)
   | none => false)

/-- `std::regex_search` with `reRateLimit`. -/
def matchRateLimit : List Char → Bool
  | [] => false
  | l@(_ :: rest) => tryRateLimitAt l || matchRateLimit rest

/-- Association-list functional model of an `unordered_map<string,SkinResult>`
lookup (`count` + `at` combined: `none` means `count id == 0`). -/
def mapGet : List (String × SkinResult) → String → Option SkinResult
  | [], _ => none
  | p :: m, id => if p.1 = id then some p.2 else mapGet m id

/-- Model of `map[id] = r` (insert or update). -/
def mapSet : List (String × SkinResult) → String → SkinResult → List (String × SkinResult)
  | [], id, r => [(id, r)]
  | p :: m, id, r => if p.1 = id then (id, r) :: m else p :: mapSet m id r

/-- Model of `if (map.count(id)) map[id] = r;` (update only if present). -/
def pmUpd (m : List (String × SkinResult)) (id : String) (r : SkinResult) :
    List (String × SkinResult) :=
  if (mapGet m id).isSome then mapSet m id r else m

/-- Output of the steamcmd log classifier, from `struct ParsedLog` in
downloader2_2.cpp, together with the loop-local `lastId` context variable
of `parseSteamCmdLog`. -/
structure ParsedLog where
  perItem : List (String × SkinResult)
  globalRateLimit : Bool
  globalTimeout : Bool
  globalLockFailed : Bool
  globalValidationFail : Bool
  successCount : Nat
  failureCount : Nat
  lastId : String
deriving DecidableEq

/-- Classification of the reason captured by `reResult`
(downloader2_2.cpp lines 345-367), together with its counter and flag
updates. -/
def classifyReason (reason : String) (st : ParsedLog) : SkinResult × ParsedLog :=
  if reason = "OK" || containsLit "Success".data reason.data then
    (SkinResult.Success, { st with successCount := st.successCount + 1 })
  else if containsLit "Locking Failed".data reason.data ||
          containsLit "locked".data reason.data then
    (SkinResult.LockFailed,
      { st with globalLockFailed := true, failureCount := st.failureCount + 1 })
  else if containsLit "Timeout".data reason.data then
    (SkinResult.Timeout,
      { st with globalTimeout := true, failureCount := st.failureCount + 1 })
  else if containsLit "rate".data reason.data || containsLit "Rate".data reason.data then
    (SkinResult.RateLimit,
      { st with globalRateLimit := true, failureCount := st.failureCount + 1 })
  else
    (SkinResult.Error, { st with failureCount := st.failureCount + 1 })

/-- The `lastId` upgrade used by the id-less validation-failure and
patch-lock branches (downloader2_2.cpp lines 385-388 and 395-398):
if `lastId` is non-empty, present in the map, and still `Error` or
`Unknown`, set it to `r`. -/
def upgradeLast (st : ParsedLog) (r : SkinResult) : List (String × SkinResult) :=
  if st.lastId ≠ "" ∧
     (mapGet st.perItem st.lastId = some SkinResult.Error ∨
      mapGet st.perItem st.lastId = some SkinResult.Unknown) then
    mapSet st.perItem st.lastId r
  else st.perItem

/-- One iteration of the `while (std::getline(file, line))` loop of
`parseSteamCmdLog` (downloader2_2.cpp lines 336-445), with the branches in
the order of the source. -/
def stepLine (st : ParsedLog) (line : String) : ParsedLog :=
  let l := line.data
  match matchResult l with
  | some (id, reason) =>
    let p := classifyReason reason st
    { p.2 with perItem := pmUpd p.2.perItem id p.1, lastId := id }
  | none =>
    match matchValidationId l with
    | some id =>
      { st with perItem := pmUpd st.perItem id SkinResult.ValidationFailed,
                globalValidationFail := true }
    | none =>
      if containsLit "Staged file validation failed".data l ||
         containsLit "Missing update files".data l then
        { st with globalValidationFail := true,
                  perItem := upgradeLast st SkinResult.ValidationFailed }
      else if containsLitIcase "failed to write patch state file (file locked)".data l then
        { st with globalLockFailed := true,
                  perItem := upgradeLast st SkinResult.LockFailed }
      else
        match matchSuccessLine l with
        | some id =>
          if (mapGet st.perItem id).isSome then
            { st with perItem := mapSet st.perItem id SkinResult.Success,
                      successCount := st.successCount + 1, lastId := id }
          else { st with lastId := id }
        | none =>
          match matchErrorLine l with
          | some (id, reason) =>
            if containsLit "Timeout".data reason.data then
              { st with globalTimeout := true,
                        perItem := pmUpd st.perItem id SkinResult.Timeout,
                        failureCount := st.failureCount + 1, lastId := id }
            else if containsLit "rate".data reason.data ||
                    containsLit "Rate".data reason.data then
              { st with globalRateLimit := true,
                        perItem := pmUpd st.perItem id SkinResult.RateLimit,
                        failureCount := st.failureCount + 1, lastId := id }
            else
              { st with perItem := pmUpd st.perItem id SkinResult.Error,
                        failureCount := st.failureCount + 1, lastId := id }
          | none =>
            match matchTimeoutLine l with
            | some id =>
              { st with perItem := pmUpd st.perItem id SkinResult.Timeout,
                        globalTimeout := true,
                        failureCount := st.failureCount + 1, lastId := id }
            | none =>
              if matchRateLimit l then { st with globalRateLimit := true } else st

/-- The `for (const auto& id : chunk) result.perItem[id] = Unknown;`
initialisation (downloader2_2.cpp lines 315-316). -/
def initPerItem (chunk : List String) : List (String × SkinResult) :=
  chunk.foldl (fun m id => mapSet m id SkinResult.Unknown) []

/-- The steamcmd log classifier `parseSteamCmdLog` (downloader2_2.cpp lines
306-448) applied to the lines of an opened log file. -/
def parseSteamCmdLog (logLines : List String) (chunk : List String) : ParsedLog :=
  logLines.foldl stepLine
    { perItem := initPerItem chunk, globalRateLimit := false, globalTimeout := false,
      globalLockFailed := false, globalValidationFail := false,
      successCount := 0, failureCount := 0, lastId := "" }

/-- Per-identifier abstraction of the relevant directory trees: `instHas`
holds the identifiers whose directory under
`<instanceDir>/steamapps/workshop/content/252490` satisfies
`folderHasFiles`, `sharedHas` the ones whose directory under
`rust_workshop/steamapps/workshop/content/252490` (CONTENT_PATH) does. -/
structure FSState where
  instHas : List String
  sharedHas : List String
deriving DecidableEq

/-- Effect on the abstract filesystem of moving the identifier's directory
from the instance tree to the shared tree.  Both `fs::rename` and the
fallback `fs::copy(recursive, overwrite)` followed by `fs::remove_all(src)`
have this effect when they succeed. -/
def fsTransfer (s : FSState) (id : String) : FSState :=
  { instHas := s.instHas.filter (fun x => !(x == id)),
    sharedHas := id :: s.sharedHas }

/-- `moveSkinToShared` (downloader2_2.cpp lines 259-282): early-return true
if the destination already has files; false if the source has none; else
rename (if it succeeds) or copy-then-delete (if the rename throws and the
copy succeeds), returning `folderHasFiles(dst)` afterwards; false when both
primitives throw.  `renameOk`/`copyOk` are the success oracles of the two
filesystem primitives. -/
def moveSkinToShared (s : FSState) (renameOk copyOk : Bool) (id : String) :
    Bool × FSState :=
  if s.sharedHas.contains id then (true, s)
  else if !(s.instHas.contains id) then (false, s)
  else if renameOk then
    let s' := fsTransfer s id
    (s'.sharedHas.contains id, s')
  else if copyOk then
    let s' := fsTransfer s id
    (s'.sharedHas.contains id, s')
  else (false, s)

/-- The global atomic counters of downloader2_2.cpp lines 119-127 that the
worker's reconcile loop touches. -/
structure Counters where
  success : Nat
  timeout : Nat
  ratelimit : Nat
  lockFail : Nat
  validationFail : Nat
  error : Nat
  failed : Nat
  processed : Nat
deriving DecidableEq

/-- Global state mutated by a worker: the abstract filesystem, the shared
`skinResults` outcome map, and the counters. -/
structure WState where
  fsys : FSState
  results : List (String × SkinResult)
  cnt : Counters
deriving DecidableEq

/-- The `sr = parsed.perItem.count(id) ? parsed.perItem.at(id) : Unknown`
lookup of downloader2_2.cpp lines 550-551. -/
def perItemOutcome (plog : ParsedLog) (id : String) : SkinResult :=
  match mapGet plog.perItem id with
  | some r => r
  | none => SkinResult.Unknown

/-- The per-identifier outcome adjustment of downloader2_2.cpp lines
556-567: files present at the destination win; a log "Success" without
files is downgraded to ValidationFailed; a hard timeout overrides anything
that is not a success. -/
def reconcileOutcome (sr0 : SkinResult) (moved inShared timedOut : Bool) :
    SkinResult :=
  let sr1 :=
    if moved || inShared then SkinResult.Success
    else if sr0 = SkinResult.Success then SkinResult.ValidationFailed
    else sr0
  if timedOut = true ∧ ¬(sr1 = SkinResult.Success) then SkinResult.Timeout else sr1

/-- The `switch (sr)` of downloader2_2.cpp lines 569-584: returns the
outcome actually stored (the default case maps Unknown/Skipped to Error)
and the incremented counters, including `totalProcessed++`. -/
def applySwitch (sr : SkinResult) (c : Counters) : SkinResult × Counters :=
  let p :=
    match sr with
    | SkinResult.Success =>
      (sr, { c with success := c.success + 1 })
    | SkinResult.Timeout =>
      (sr, { c with timeout := c.timeout + 1, failed := c.failed + 1 })
    | SkinResult.RateLimit =>
      (sr, { c with ratelimit := c.ratelimit + 1, failed := c.failed + 1 })
    | SkinResult.LockFailed =>
      (sr, { c with lockFail := c.lockFail + 1, failed := c.failed + 1 })
    | SkinResult.ValidationFailed =>
      (sr, { c with validationFail := c.validationFail + 1, failed := c.failed + 1 })
    | _ =>
      (SkinResult.Error, { c with error := c.error + 1, failed := c.failed + 1 })
  (p.1, { p.2 with processed := p.2.processed + 1 })

/-- One iteration of the reconcile loop `for (const auto& id : chunk)`
(downloader2_2.cpp lines 549-590): move, re-check the shared destination,
adjust the outcome, bump the counters, store into `skinResults`. -/
def reconcileStep (plog : ParsedLog) (timedOut : Bool) (rOk cOk : String → Bool)
    (st : WState) (id : String) : WState :=
  let mv := moveSkinToShared st.fsys (rOk id) (cOk id) id
  let inShared := mv.2.sharedHas.contains id
  let fin := applySwitch (reconcileOutcome (perItemOutcome plog id) mv.1 inShared timedOut) st.cnt
  { fsys := mv.2, results := mapSet st.results id fin.1, cnt := fin.2 }

/-- The instance worker `workerInstance` (downloader2_2.cpp lines 453-594)
restricted to the state the claims mention.  `scriptOk` models whether the
steamcmd script file could be created: when it cannot, the worker logs and
returns before doing anything else (lines 476-479).  `plog` is the
classifier's output for the instance's log file, `timedOut` the hard
timeout flag, and `rOk`/`cOk` the per-identifier filesystem oracles of
`moveSkinToShared`. -/
def workerInstance (chunk : List String) (scriptOk : Bool) (plog : ParsedLog)
    (timedOut : Bool) (rOk cOk : String → Bool) (st : WState) : WState :=
  if chunk.isEmpty then st
  else if !scriptOk then st
  else chunk.foldl (reconcileStep plog timedOut rOk cOk) st

/-
Input parser (`parseIds`, downloader2_2.cpp lines 599-617): repeated
`std::regex_search` of `"(\d{6,12})"` on each line, continuing after each
match, followed by first-occurrence deduplication.
-/

/-- One `std::regex_search` step for `"(\d{6,12})"`: find the leftmost
position where a double quote is followed by 6-12 digits (the run is
maximal, since a 13th digit makes every greedy retry fail) and a closing
double quote; return the captured digits and the remainder of the line
after the closing quote (`m.suffix()`). -/
def matchIdAt : List Char → Option (String × List Char)
  | [] => none
  | c :: rest =>
    if c = '"' then
      let d := rest.takeWhile Char.isDigit
      let r := rest.drop d.length
      if 6 ≤ d.length ∧ d.length ≤ 12 ∧ r.head? = some '"' then
        some (String.mk d, r.drop 1)
      else matchIdAt rest
    else matchIdAt rest

theorem matchIdAt_some_length {l : List Char} {s : String} {suf : List Char}
    (h : matchIdAt l = some (s, suf)) : suf.length < l.length := by
  induction l with
  | nil => simp [matchIdAt] at h
  | cons c rest ih =>
    rw [matchIdAt] at h
    by_cases hc : c = '"'
    · simp only [if_pos hc] at h
      by_cases hcond : 6 ≤ (rest.takeWhile Char.isDigit).length ∧
          (rest.takeWhile Char.isDigit).length ≤ 12 ∧
          (rest.drop (rest.takeWhile Char.isDigit).length).head? = some '"'
      · simp only [if_pos hcond, Option.some.injEq, Prod.mk.injEq] at h
        have hsuf : suf = (rest.drop (rest.takeWhile Char.isDigit).length).drop 1 :=
          h.2.symm
        have h1 : ((rest.drop (rest.takeWhile Char.isDigit).length).drop 1).length ≤
            rest.length := by
          simp [List.length_drop]
        simp only [hsuf, List.length_cons]
        omega
      · simp only [if_neg hcond] at h
        have := ih h
        simp only [List.length_cons]
        omega
    · simp only [if_neg hc] at h
      have := ih h
      simp only [List.length_cons]
      omega

/-- Matches of `"(\d{6,12})"` on one line, in order, each search resuming
from `m.suffix()` (after the closing quote), as in the source's
`while (std::regex_search(s, m, idRe))` loop. -/
def scanLine (l : List Char) : List String :=
  match h : matchIdAt l with
  | none => []
  | some p => p.1 :: scanLine p.2
termination_by l.length
decreasing_by exact matchIdAt_some_length h

/-- First-occurrence deduplication preserving order, the effect of the
`std::remove_if` with the `seen` set (downloader2_2.cpp lines 613-615). -/
def dedupFirst (l : List String) : List String :=
  l.foldl (fun acc id => if acc.contains id then acc else acc ++ [id]) []

/-- `parseIds` (downloader2_2.cpp lines 599-617) on the lines of the input
file. -/
def parseIdsModel (lines : List String) : List String :=
  dedupFirst ((lines.map (fun s => scanLine s.data)).flatten)

/-- Modelled from the spec's words for claim C7: all maximal decimal-digit
runs of length 6-12 that are delimited by double quotes, scanning every
position of the line (so a double quote may delimit two adjacent runs),
in left-to-right order. -/
def specScan : List Char → List String
  | [] => []
  | c :: rest =>
    if c = '"' then
      let d := rest.takeWhile Char.isDigit
      let r := rest.drop d.length
      if 6 ≤ d.length ∧ d.length ≤ 12 ∧ r.head? = some '"' then
        String.mk d :: specScan rest
      else specScan rest
    else specScan rest

/-- Modelled from the spec's words for claim C7: the deduplicated,
order-preserving sequence of all quote-delimited 6-12 digit runs. -/
def specIdsRuns (lines : List String) : List String :=
  dedupFirst ((lines.map (fun s => specScan s.data)).flatten)

/-- True when the input does not start with a decimal digit. -/
def headNotDigit (l : List Char) : Bool :=
  match l.head? with
  | some c => !c.isDigit
  | none => true

/-- True when no successful `"(\d{6,12})"` match has a decimal digit
immediately after its closing quote, along the scan path of `scanLine`;
under this condition no two quote-delimited runs share a quote and the
resuming scan of the source misses nothing. -/
def scanOk (l : List Char) : Bool :=
  match h : matchIdAt l with
  | none => true
  | some p => headNotDigit p.2 && scanOk p.2
termination_by l.length
decreasing_by exact matchIdAt_some_length h

/-
Partitioner and pass scheduler (downloader2_2.cpp lines 622-648).
-/

/-- Sizes of the chunks built by `partition` (downloader2_2.cpp lines
622-634): chunk `i` receives `size/n + (i < size%n ? 1 : 0)` identifiers. -/
def partitionSizes (len n : Nat) : List Nat :=
  (List.range n).map (fun i => len / n + if i < len % n then 1 else 0)

/-- Consecutive slices of the given sizes, the effect of the sequential
`idx` cursor in `partition` (`List.take` clamps exactly like the
`idx < ids.size()` guard). -/
def takeChunks : List String → List Nat → List (List String)
  | _, [] => []
  | l, sz :: rest => l.take sz :: takeChunks (l.drop sz) rest

/-- `partition(ids, n)` (downloader2_2.cpp lines 622-634). -/
def partitionIds (ids : List String) (n : Nat) : List (List String) :=
  takeChunks ids (partitionSizes ids.length n)

/-- The chunks dispatched by `runPass` (downloader2_2.cpp lines 639-648):
`n = min(instances, toDownload.size())` workers over `partition`'s chunks. -/
def runPassChunks (ids : List String) (instances : Nat) : List (List String) :=
  partitionIds ids (min instances ids.length)

/-- The concurrency the retry loop in `main` passes to `runPass` for a
retry pass: `std::max(1, maxInstances / 2)` (downloader2_2.cpp line 869),
recomputed from the user-supplied `maxInstances` on every retry. -/
def retryConcurrency (maxInstances : Nat) : Nat := max 1 (maxInstances / 2)

/-- Concurrency dispatched for pass number `pass` (1-based): the initial
pass (downloader2_2.cpp line 827) uses `maxInstances`, every retry pass
(lines 830-871) uses `retryConcurrency maxInstances`. -/
def passConcurrency (maxInstances : Nat) (pass : Nat) : Nat :=
  if pass = 1 then maxInstances else retryConcurrency maxInstances

/-
Manifest patcher (unnamed/part_000).  Lines are the file's lines after the
binary read that strips a trailing carriage return (lines 461-474); literal
braces inside string literals are written with the \x7b / \x7d escapes.
-/

/-- `trimStr` (part_000 lines 104-109): strip leading and trailing
space, tab, carriage return and newline. -/
def isWsChar (c : Char) : Bool := c = ' ' || c = '\t' || c = '\r' || c = '\n'

def trimStr (s : String) : String :=
  String.mk (((s.data.dropWhile isWsChar).reverse.dropWhile isWsChar).reverse)

/-- `firstQuotedToken` (part_000 lines 114-120): the content of the first
quoted token, or "" when there is no complete pair of quotes. -/
def firstQuotedToken (l : List Char) : String :=
  match l.dropWhile (fun c => !(c = '"')) with
  | [] => ""
  | _ :: rest =>
    let tok := rest.takeWhile (fun c => !(c = '"'))
    if rest.length = tok.length then "" else String.mk tok

/-- `isAllDigits` (part_000 lines 122-124). -/
def isAllDigits (s : String) : Bool :=
  !s.data.isEmpty && s.data.all Char.isDigit

/-- The section the `.acf` line parser is currently in
(`enum class Sec` in part_000 line 255). -/
inductive Sec where
  | NoneSec
  | Installed
  | Details
  | Other
deriving DecidableEq

/-- `struct AcfInfo` (part_000 lines 245-250): the identifiers present in
each section and the line index of each section's closing brace (-1 when
not found). -/
structure AcfInfo where
  installedIds : List String
  detailsIds : List String
  installedCloseLineIdx : Int
  detailsCloseLineIdx : Int
deriving DecidableEq

/-- `unordered_set` insert. -/
def setInsert (l : List String) (s : String) : List String :=
  if l.contains s then l else s :: l

/-- One iteration of the `parseAcf` loop (part_000 lines 259-301) on line
number `i` with the current (section, absolute depth, info) state. -/
def acfStep (st : Sec × Nat × AcfInfo) (p : Nat × String) : Sec × Nat × AcfInfo :=
  let cur := st.1
  let depth := st.2.1
  let info := st.2.2
  let t := trimStr p.2
  if t = "\x7b" then (cur, depth + 1, info)
  else if t = "\x7d" then
    if depth = 2 then
      (Sec.NoneSec, depth - 1,
        { info with
          installedCloseLineIdx :=
            if cur = Sec.Installed then (p.1 : Int) else info.installedCloseLineIdx,
          detailsCloseLineIdx :=
            if cur = Sec.Details then (p.1 : Int) else info.detailsCloseLineIdx })
    else (cur, (if 0 < depth then depth - 1 else depth), info)
  else if !(t.data.head? = some '"') then st
  else
    let key := firstQuotedToken t.data
    if key = "" then st
    else if depth = 1 then
      ((if key = "WorkshopItemsInstalled" then Sec.Installed
        else if key = "WorkshopItemDetails" then Sec.Details
        else Sec.Other), depth, info)
    else if depth = 2 then
      (cur, depth,
        if isAllDigits key then
          match cur with
          | Sec.Installed => { info with installedIds := setInsert info.installedIds key }
          | Sec.Details => { info with detailsIds := setInsert info.detailsIds key }
          | _ => info
        else info)
    else st

/-- `parseAcf` (part_000 lines 252-304). -/
def parseAcf (lines : List String) : AcfInfo :=
  (lines.enum.foldl acfStep
    (Sec.NoneSec, 0,
      { installedIds := [], detailsIds := [],
        installedCloseLineIdx := -1, detailsCloseLineIdx := -1 })).2.2

/-- `struct SkinInfo` (part_000 lines 129-134). -/
structure SkinInfo where
  id : String
  size : Nat
  timeupdated : Int
  timetouched : Int
deriving DecidableEq

/-- One immediate subdirectory of the content folder as the patcher sees
it: its name, whether `folderHasFiles` holds for it, and the metadata
`readSkinInfo` would compute for it (total size, publish date or newest
mtime, wall-clock time) - the latter are oracle inputs since they come
from the disk. -/
structure DiskDir where
  name : String
  hasFiles : Bool
  size : Nat
  timeupdated : Int
  timetouched : Int
deriving DecidableEq

/-- `readSkinInfo` (part_000 lines 210-218) over the modelled directory. -/
def readSkinInfo (d : DiskDir) : SkinInfo :=
  { id := d.name, size := d.size, timeupdated := d.timeupdated,
    timetouched := d.timetouched }

/-- The content-folder scan of part_000 lines 505-551: keep the all-digit,
non-empty directories that are missing from at least one of the two
sections, in iteration order, as the `toAdd` queue.  The source first
sorts the directory entries by name (lines 514-517); here `entries` is
taken in that iteration order, since the claims about this scan do not
depend on which order the entries come in. -/
def collectToAdd (acf : AcfInfo) (entries : List DiskDir) : List SkinInfo :=
  entries.filterMap (fun e =>
    if !(isAllDigits e.name) then none
    else if !e.hasFiles then none
    else if acf.installedIds.contains e.name && acf.detailsIds.contains e.name then none
    else some (readSkinInfo e))

/-- `buildInstalledEntry` (part_000 lines 309-318) as the list of lines the
`splitLines` lambda recovers from the built string. -/
def buildInstalledEntry (s : SkinInfo) : List String :=
  ["\t\t\"" ++ s.id ++ "\"",
   "\t\t\x7b",
   "\t\t\t\"size\"\t\t\"" ++ toString s.size ++ "\"",
   "\t\t\t\"timeupdated\"\t\t\"" ++ toString s.timeupdated ++ "\"",
   "\t\t\t\"manifest\"\t\t\"0\"",
   "\t\t\x7d"]

/-- `buildDetailsEntry` (part_000 lines 320-331) as a list of lines. -/
def buildDetailsEntry (s : SkinInfo) : List String :=
  ["\t\t\"" ++ s.id ++ "\"",
   "\t\t\x7b",
   "\t\t\t\"manifest\"\t\t\"0\"",
   "\t\t\t\"timeupdated\"\t\t\"" ++ toString s.timeupdated ++ "\"",
   "\t\t\t\"timetouched\"\t\t\"" ++ toString s.timetouched ++ "\"",
   "\t\t\t\"latest_timeupdated\"\t\t\"" ++ toString s.timeupdated ++ "\"",
   "\t\t\t\"latest_manifest\"\t\t\"0\"",
   "\t\t\x7d"]

/-- The `installedInsert` buffer (part_000 lines 599-601): entries for the
queued skins not already present in the installed section. -/
def installedInsertLines (acf : AcfInfo) (toAdd : List SkinInfo) : List String :=
  ((toAdd.filter (fun si => !(acf.installedIds.contains si.id))).map
    buildInstalledEntry).flatten

/-- The `detailsInsert` buffer (part_000 lines 599-602). -/
def detailsInsertLines (acf : AcfInfo) (toAdd : List SkinInfo) : List String :=
  ((toAdd.filter (fun si => !(acf.detailsIds.contains si.id))).map
    buildDetailsEntry).flatten

/-- `lines.insert(lines.begin() + idx, new.begin(), new.end())`. -/
def insertAt (l : List String) (idx : Nat) (new : List String) : List String :=
  l.take idx ++ new ++ l.drop idx

/-- The splice of part_000 lines 616-640, exactly as written: when the
details closing index is larger, insert details first, then installed;
otherwise insert installed first, add the length of the installed insert
to the details index ("adjust for the shift"), and insert details there. -/
def spliceAcf (lines : List String) (instIdx detIdx : Nat)
    (iLines dLines : List String) : List String :=
  if detIdx > instIdx then
    let l1 := if dLines.isEmpty then lines else insertAt lines detIdx dLines
    if iLines.isEmpty then l1 else insertAt l1 instIdx iLines
  else
    let l1 := if iLines.isEmpty then lines else insertAt lines instIdx iLines
    let detIdx2 := if iLines.isEmpty then detIdx else detIdx + iLines.length
    if dLines.isEmpty then l1 else insertAt l1 detIdx2 dLines

/-- Modelled from the spec's words for claim C3: splice each buffer
immediately before its section's closing-brace line (inserting at the
higher index first, which leaves the lower index unshifted). -/
def specSpliceTwo (lines : List String) (instIdx detIdx : Nat)
    (iLines dLines : List String) : List String :=
  if detIdx > instIdx then
    insertAt (insertAt lines detIdx dLines) instIdx iLines
  else
    insertAt (insertAt lines instIdx iLines) detIdx dLines

/-- The patcher's `main` from the parse to the write (part_000 lines
480-654), restricted to the data flow: `none` when a section's closing
index is missing (the patcher refuses to write); `some lines` unchanged
when the queue is empty (the file is not rewritten, part_000 lines
561-565); otherwise the spliced line vector that is written back. -/
def patcherRun (lines : List String) (entries : List DiskDir) :
    Option (List String) :=
  let acf := parseAcf lines
  if acf.installedCloseLineIdx < 0 || acf.detailsCloseLineIdx < 0 then none
  else
    let toAdd := collectToAdd acf entries
    if toAdd.isEmpty then some lines
    else
      some (spliceAcf lines acf.installedCloseLineIdx.toNat
        acf.detailsCloseLineIdx.toNat
        (installedInsertLines acf toAdd) (detailsInsertLines acf toAdd))

/-- A per-identifier filesystem oracle that always succeeds, for concrete
instances of the theorems. -/
def okF : String → Bool := fun _ => true

/-- Classifier output with an empty item map, for concrete instances. -/
def plogEmpty : ParsedLog :=
  { perItem := [], globalRateLimit := false, globalTimeout := false,
    globalLockFailed := false, globalValidationFail := false,
    successCount := 0, failureCount := 0, lastId := "" }

/-- Initial global state with empty filesystem, outcome map and counters. -/
def stEmpty : WState :=
  { fsys := { instHas := [], sharedHas := [] }, results := [],
    cnt := { success := 0, timeout := 0, ratelimit := 0, lockFail := 0,
             validationFail := 0, error := 0, failed := 0, processed := 0 } }

/-- A minimal manifest with the identifier 123456 present in both sections,
for concrete instances. -/
def acfSampleBoth : List String :=
  ["\"AppWorkshop\"", "\x7b",
   "\t\"appid\"\t\t\"252490\"",
   "\t\"WorkshopItemsInstalled\"", "\t\x7b",
   "\t\t\"123456\"", "\t\t\x7b", "\t\t\x7d",
   "\t\x7d",
   "\t\"WorkshopItemDetails\"", "\t\x7b",
   "\t\t\"123456\"", "\t\t\x7b", "\t\t\x7d",
   "\t\x7d",
   "\x7d"]

/-- A content-tree subdirectory named 123456 with files, for concrete
instances. -/
def diskSample : DiskDir :=
  { name := "123456", hasFiles := true, size := 9, timeupdated := 4,
    timetouched := 6 }

/-- A content-tree subdirectory named 123456789 with files, the new skin
of the claim-C3 failing input. -/
def diskNine : DiskDir :=
  { name := "123456789", hasFiles := true, size := 100, timeupdated := 5,
    timetouched := 7 }

/-- A well-formed manifest whose WorkshopItemDetails section precedes
WorkshopItemsInstalled (its details closing brace is line 4, its installed
closing brace line 7). -/
def acfDetailsFirst : List String :=
  ["\"AppWorkshop\"", "\x7b",
   "\t\"WorkshopItemDetails\"", "\t\x7b", "\t\x7d",
   "\t\"WorkshopItemsInstalled\"", "\t\x7b", "\t\x7d",
   "\x7d"]

/-
Helper lemmas about the association-list map, the move, and the reconcile
step.
-/

theorem mapGet_mapSet_self (m : List (String × SkinResult)) (id : String)
    (r : SkinResult) : mapGet (mapSet m id r) id = some r := by
  induction m with
  | nil => simp [mapSet, mapGet]
  | cons p m ih =>
    by_cases h : p.1 = id
    · simp [mapSet, h, mapGet]
    · simp [mapSet, h, mapGet, ih]

theorem mapGet_mapSet_ne (m : List (String × SkinResult)) (j id : String)
    (r : SkinResult) (h : ¬ id = j) : mapGet (mapSet m j r) id = mapGet m id := by
  have h' : ¬ j = id := fun he => h he.symm
  induction m with
  | nil => simp [mapSet, mapGet, h']
  | cons p m ih =>
    simp only [mapSet]
    by_cases hp : p.1 = j
    · have hpid : ¬ p.1 = id := fun he => h' (hp.symm.trans he)
      rw [if_pos hp]
      simp only [mapGet]
      rw [if_neg h', if_neg hpid]
    · rw [if_neg hp]
      simp only [mapGet]
      by_cases hq : p.1 = id
      · rw [if_pos hq, if_pos hq]
      · rw [if_neg hq, if_neg hq, ih]

theorem mapGet_isSome_mapSet (m : List (String × SkinResult)) (id : String)
    (r : SkinResult) (h : (mapGet m id).isSome = true) :
    mapGet (mapSet m id r) id = some r := mapGet_mapSet_self m id r

theorem contains_cons_self (l : List String) (id : String) :
    (id :: l).contains id = true := by
  simp [List.contains_cons]

theorem contains_cons_ne (l : List String) (j id : String) (h : ¬ id = j) :
    (j :: l).contains id = l.contains id := by
  simp [List.contains_cons, h]

theorem contains_filter_ne (l : List String) (id : String) :
    (l.filter (fun x => !(x == id))).contains id = false := by
  induction l with
  | nil => rfl
  | cons a l ih =>
    by_cases h : a = id
    · simp [List.filter_cons, h, ih]
    · have hne : ¬ id = a := fun he => h he.symm
      simp [List.filter_cons, h, List.contains_cons, hne, ih]

theorem move_true_shared (s : FSState) (r c : Bool) (id : String)
    (h : (moveSkinToShared s r c id).1 = true) :
    (moveSkinToShared s r c id).2.sharedHas.contains id = true := by
  unfold moveSkinToShared at h ⊢
  split_ifs at h ⊢ <;> simp_all [fsTransfer, contains_cons_self]

theorem move_shared_other (s : FSState) (r c : Bool) (j id : String)
    (h : ¬ id = j) :
    (moveSkinToShared s r c j).2.sharedHas.contains id =
      s.sharedHas.contains id := by
  unfold moveSkinToShared
  split_ifs <;>
    first
      | rfl
      | (show (j :: s.sharedHas).contains id = s.sharedHas.contains id
         exact contains_cons_ne s.sharedHas j id h)

theorem applySwitch_fst_success_iff (sr : SkinResult) (c : Counters) :
    (applySwitch sr c).1 = SkinResult.Success ↔ sr = SkinResult.Success := by
  cases sr <;> simp [applySwitch]

theorem applySwitch_fst_ne_unknown (sr : SkinResult) (c : Counters) :
    ¬ (applySwitch sr c).1 = SkinResult.Unknown := by
  cases sr <;> simp [applySwitch]

theorem reconcileOutcome_success_iff (sr0 : SkinResult)
    (moved inShared timedOut : Bool) (hmi : moved = true → inShared = true) :
    reconcileOutcome sr0 moved inShared timedOut = SkinResult.Success ↔
      inShared = true := by
  cases sr0 <;> cases moved <;> cases inShared <;> cases timedOut <;>
    simp_all [reconcileOutcome]

theorem reconcileStep_results_self (plog : ParsedLog) (timedOut : Bool)
    (rOk cOk : String → Bool) (st : WState) (id : String) :
    mapGet (reconcileStep plog timedOut rOk cOk st id).results id =
      some (applySwitch (reconcileOutcome (perItemOutcome plog id)
        (moveSkinToShared st.fsys (rOk id) (cOk id) id).1
        ((moveSkinToShared st.fsys (rOk id) (cOk id) id).2.sharedHas.contains id)
        timedOut) st.cnt).1 :=
  mapGet_mapSet_self st.results id _

theorem reconcileStep_fsys (plog : ParsedLog) (timedOut : Bool)
    (rOk cOk : String → Bool) (st : WState) (id : String) :
    (reconcileStep plog timedOut rOk cOk st id).fsys =
      (moveSkinToShared st.fsys (rOk id) (cOk id) id).2 := rfl

theorem reconcileStep_cnt (plog : ParsedLog) (timedOut : Bool)
    (rOk cOk : String → Bool) (st : WState) (id : String) :
    (reconcileStep plog timedOut rOk cOk st id).cnt =
      (applySwitch (reconcileOutcome (perItemOutcome plog id)
        (moveSkinToShared st.fsys (rOk id) (cOk id) id).1
        ((moveSkinToShared st.fsys (rOk id) (cOk id) id).2.sharedHas.contains id)
        timedOut) st.cnt).2 := rfl

theorem reconcileStep_post (plog : ParsedLog) (timedOut : Bool)
    (rOk cOk : String → Bool) (st : WState) (id : String) :
    ∃ sr, mapGet (reconcileStep plog timedOut rOk cOk st id).results id = some sr ∧
      ¬ sr = SkinResult.Unknown ∧
      (sr = SkinResult.Success ↔
        (reconcileStep plog timedOut rOk cOk st id).fsys.sharedHas.contains id = true) := by
  refine ⟨_, reconcileStep_results_self plog timedOut rOk cOk st id,
    applySwitch_fst_ne_unknown _ _, ?_⟩
  rw [applySwitch_fst_success_iff, reconcileStep_fsys]
  exact reconcileOutcome_success_iff _ _ _ _
    (move_true_shared st.fsys (rOk id) (cOk id) id)

theorem reconcileStep_preserve (plog : ParsedLog) (timedOut : Bool)
    (rOk cOk : String → Bool) (st : WState) (j id : String) (h : ¬ id = j) :
    mapGet (reconcileStep plog timedOut rOk cOk st j).results id =
      mapGet st.results id ∧
    (reconcileStep plog timedOut rOk cOk st j).fsys.sharedHas.contains id =
      st.fsys.sharedHas.contains id :=
  ⟨mapGet_mapSet_ne st.results j id _ h,
   move_shared_other st.fsys (rOk j) (cOk j) j id h⟩

theorem reconcile_foldl_preserve (plog : ParsedLog) (timedOut : Bool)
    (rOk cOk : String → Bool) :
    ∀ (rest : List String) (st : WState) (id : String), id ∉ rest →
    mapGet (rest.foldl (reconcileStep plog timedOut rOk cOk) st).results id =
      mapGet st.results id ∧
    (rest.foldl (reconcileStep plog timedOut rOk cOk) st).fsys.sharedHas.contains id =
      st.fsys.sharedHas.contains id := by
  intro rest
  induction rest with
  | nil => intro st id h; exact ⟨rfl, rfl⟩
  | cons j rest ih =>
    intro st id h
    have h1 : ¬ id = j := fun he => h (by simp [he])
    have h2 : id ∉ rest := fun hm => h (List.mem_cons_of_mem _ hm)
    simp only [List.foldl_cons]
    have hp := reconcileStep_preserve plog timedOut rOk cOk st j id h1
    have hi := ih (reconcileStep plog timedOut rOk cOk st j) id h2
    exact ⟨hi.1.trans hp.1, hi.2.trans hp.2⟩

theorem reconcile_fold_post (plog : ParsedLog) (timedOut : Bool)
    (rOk cOk : String → Bool) :
    ∀ (chunk : List String) (st : WState) (id : String), id ∈ chunk →
    ∃ sr,
      mapGet (chunk.foldl (reconcileStep plog timedOut rOk cOk) st).results id =
        some sr ∧
      ¬ sr = SkinResult.Unknown ∧
      (sr = SkinResult.Success ↔
        (chunk.foldl (reconcileStep plog timedOut rOk cOk) st).fsys.sharedHas.contains id
          = true) := by
  intro chunk
  induction chunk with
  | nil => intro st id h; exact absurd h (List.not_mem_nil id)
  | cons c rest ih =>
    intro st id h
    by_cases hr : id ∈ rest
    · simpa using ih (reconcileStep plog timedOut rOk cOk st c) id hr
    · have hc : id = c := by
        rcases List.mem_cons.mp h with h' | h'
        · exact h'
        · exact absurd h' hr
      subst hc
      obtain ⟨sr, h1, h2, h3⟩ := reconcileStep_post plog timedOut rOk cOk st id
      have hp := reconcile_foldl_preserve plog timedOut rOk cOk rest
        (reconcileStep plog timedOut rOk cOk st id) id hr
      refine ⟨sr, ?_, h2, ?_⟩
      · simpa only [List.foldl_cons] using hp.1.trans h1
      · simp only [List.foldl_cons]
        rw [hp.2]
        exact h3

theorem workerInstance_cons (c : String) (rest : List String) (plog : ParsedLog)
    (timedOut : Bool) (rOk cOk : String → Bool) (st : WState) :
    workerInstance (c :: rest) true plog timedOut rOk cOk st =
      (c :: rest).foldl (reconcileStep plog timedOut rOk cOk) st := by
  simp [workerInstance]

/-- Claim C1: after an instance worker completes its chunk (the steamcmd
script was created, so the worker runs to the end), for every identifier in
the chunk the outcome map records Success if and only if the shared-tree
destination directory `rust_workshop/steamapps/workshop/content/252490/<id>`
satisfies `folderHasFiles`. -/
theorem c1_worker_success_iff_shared (chunk : List String) (plog : ParsedLog)
    (timedOut : Bool) (rOk cOk : String → Bool) (st : WState) (id : String)
    (h : id ∈ chunk) :
    (mapGet (workerInstance chunk true plog timedOut rOk cOk st).results id =
        some SkinResult.Success ↔
      (workerInstance chunk true plog timedOut rOk cOk st).fsys.sharedHas.contains id
        = true) := by
  cases chunk with
  | nil => exact absurd h (List.not_mem_nil id)
  | cons c rest =>
    rw [workerInstance_cons]
    obtain ⟨sr, h1, _, h3⟩ :=
      reconcile_fold_post plog timedOut rOk cOk (c :: rest) st id h
    rw [h1]
    simpa only [Option.some.injEq] using h3

theorem c1_witness :
    ("111111" ∈ ["111111"]) ∧
    (mapGet (workerInstance ["111111"] true plogEmpty false okF okF stEmpty).results
        "111111" = some SkinResult.Success ↔
      (workerInstance ["111111"] true plogEmpty false okF okF stEmpty).fsys.sharedHas.contains
        "111111" = true) :=
  ⟨by decide,
   c1_worker_success_iff_shared ["111111"] plogEmpty false okF okF stEmpty "111111"
     (by decide)⟩

/-- Claim C2, counterexample: when the worker cannot create its steamcmd
script file it returns before the reconcile loop (downloader2_2.cpp lines
476-479), so an identifier of a non-empty chunk ends up with no recorded
outcome. -/
theorem c2_counterexample :
    (["123456"] ≠ ([] : List String)) ∧
    mapGet (workerInstance ["123456"] false plogEmpty false okF okF stEmpty).results
      "123456" = none :=
  ⟨by decide, rfl⟩

/-- Claim C2 as amended: for every chunk, provided the steamcmd script file
was created successfully, every identifier of the chunk has an outcome
recorded in the outcome map when the worker returns. -/
theorem c2_worker_records_all (chunk : List String) (plog : ParsedLog)
    (timedOut : Bool) (rOk cOk : String → Bool) (st : WState) (id : String)
    (h : id ∈ chunk) :
    (mapGet (workerInstance chunk true plog timedOut rOk cOk st).results id).isSome
      = true := by
  cases chunk with
  | nil => exact absurd h (List.not_mem_nil id)
  | cons c rest =>
    rw [workerInstance_cons]
    obtain ⟨sr, h1, _, _⟩ :=
      reconcile_fold_post plog timedOut rOk cOk (c :: rest) st id h
    rw [h1]
    rfl

theorem c2_witness :
    (("123456" : String) ∈ ["123456"]) ∧
    (mapGet (workerInstance ["123456"] true plogEmpty false okF okF stEmpty).results
      "123456").isSome = true :=
  ⟨by decide,
   c2_worker_records_all ["123456"] plogEmpty false okF okF stEmpty "123456" (by decide)⟩

/-- Claim C5, counterexample: when the destination already has files,
`moveSkinToShared` returns true immediately (downloader2_2.cpp line 263)
without touching the source, so the instance-tree directory can still
contain the identifier's files after a move that reported success. -/
theorem c5_counterexample :
    (moveSkinToShared { instHas := ["111111"], sharedHas := ["111111"] }
        true true "111111").1 = true ∧
    (moveSkinToShared { instHas := ["111111"], sharedHas := ["111111"] }
        true true "111111").2.instHas.contains "111111" = true := by
  exact ⟨rfl, by decide⟩

/-- Claim C5 as amended: whenever `moveSkinToShared` reports success the
destination under the shared tree has files; and if the destination did not
already have files before the call (an actual transfer took place), the
source path under the instance directory has none afterwards. -/
theorem c5_move_success (s : FSState) (rOk cOk : Bool) (id : String)
    (h : (moveSkinToShared s rOk cOk id).1 = true) :
    (moveSkinToShared s rOk cOk id).2.sharedHas.contains id = true ∧
    (s.sharedHas.contains id = false →
      (moveSkinToShared s rOk cOk id).2.instHas.contains id = false) := by
  refine ⟨move_true_shared s rOk cOk id h, fun hpre => ?_⟩
  unfold moveSkinToShared at h ⊢
  simp only [hpre, Bool.false_eq_true, if_false] at h ⊢
  by_cases hin : s.instHas.contains id = true
  · simp only [hin, Bool.not_true, Bool.false_eq_true, if_false] at h ⊢
    cases rOk with
    | true =>
      simp only [if_true] at h ⊢
      exact contains_filter_ne s.instHas id
    | false =>
      simp only [Bool.false_eq_true, if_false] at h ⊢
      cases cOk with
      | true =>
        simp only [if_true] at h ⊢
        exact contains_filter_ne s.instHas id
      | false => simp at h
  · rw [Bool.not_eq_true] at hin
    have hin' : id ∉ s.instHas := by simpa using hin
    simp [hin'] at h

theorem c5_witness :
    ((moveSkinToShared { instHas := ["222222"], sharedHas := [] }
        true true "222222").1 = true) ∧
    ((moveSkinToShared { instHas := ["222222"], sharedHas := [] }
        true true "222222").2.sharedHas.contains "222222" = true ∧
     (({ instHas := ["222222"], sharedHas := [] } : FSState).sharedHas.contains
         "222222" = false →
       (moveSkinToShared { instHas := ["222222"], sharedHas := [] }
         true true "222222").2.instHas.contains "222222" = false)) :=
  ⟨by decide,
   c5_move_success { instHas := ["222222"], sharedHas := [] } true true "222222"
     (by decide)⟩

/-- Claim C10: the reconcile loop never stores Unknown in the outcome map
(first conjunct, for a worker that runs to the end over any chunk); and an
identifier whose reconciled result is still Unknown - not classified in the
log, no move success, no files at the shared destination, no instance
timeout - is stored as Error with the error and failed counters
incremented (second conjunct, about the recording step for one
identifier). -/
theorem c10_no_unknown :
    (∀ (chunk : List String) (plog : ParsedLog) (timedOut : Bool)
       (rOk cOk : String → Bool) (st : WState) (id : String), id ∈ chunk →
       ¬ (mapGet (workerInstance chunk true plog timedOut rOk cOk st).results id =
            some SkinResult.Unknown)) ∧
    (∀ (plog : ParsedLog) (timedOut : Bool) (rOk cOk : String → Bool)
       (st : WState) (id : String),
       perItemOutcome plog id = SkinResult.Unknown →
       timedOut = false →
       (moveSkinToShared st.fsys (rOk id) (cOk id) id).1 = false →
       (moveSkinToShared st.fsys (rOk id) (cOk id) id).2.sharedHas.contains id = false →
       mapGet (reconcileStep plog timedOut rOk cOk st id).results id =
           some SkinResult.Error ∧
       (reconcileStep plog timedOut rOk cOk st id).cnt.error = st.cnt.error + 1 ∧
       (reconcileStep plog timedOut rOk cOk st id).cnt.failed = st.cnt.failed + 1) := by
  constructor
  · intro chunk plog timedOut rOk cOk st id h
    cases chunk with
    | nil => exact absurd h (List.not_mem_nil id)
    | cons c rest =>
      rw [workerInstance_cons]
      obtain ⟨sr, h1, h2, _⟩ :=
        reconcile_fold_post plog timedOut rOk cOk (c :: rest) st id h
      rw [h1]
      intro he
      exact h2 (Option.some.inj he)
  · intro plog timedOut rOk cOk st id hpi htd hmv hsh
    subst htd
    have hout : reconcileOutcome (perItemOutcome plog id)
        (moveSkinToShared st.fsys (rOk id) (cOk id) id).1
        ((moveSkinToShared st.fsys (rOk id) (cOk id) id).2.sharedHas.contains id)
        false = SkinResult.Unknown := by
      rw [hpi, hmv, hsh]
      decide
    refine ⟨?_, ?_, ?_⟩
    · rw [reconcileStep_results_self, hout]
      rfl
    · rw [reconcileStep_cnt, hout]
      rfl
    · rw [reconcileStep_cnt, hout]
      rfl

theorem c10_witness :
    (¬ (mapGet (workerInstance ["111111"] true plogEmpty false okF okF stEmpty).results
          "111111" = some SkinResult.Unknown)) ∧
    (mapGet (reconcileStep plogEmpty false okF okF stEmpty "111111").results "111111" =
        some SkinResult.Error ∧
     (reconcileStep plogEmpty false okF okF stEmpty "111111").cnt.error =
        stEmpty.cnt.error + 1 ∧
     (reconcileStep plogEmpty false okF okF stEmpty "111111").cnt.failed =
        stEmpty.cnt.failed + 1) :=
  ⟨c10_no_unknown.1 ["111111"] plogEmpty false okF okF stEmpty "111111" (by decide),
   c10_no_unknown.2 plogEmpty false okF okF stEmpty "111111" (by decide) rfl
     (by decide) (by decide)⟩

/-- Claim C6: a log line with no embedded item id that contains "Staged
file validation failed" or "Missing update files" (and does not match the
earlier result-line or validation-with-id patterns, which would carry an
id) sets the validation flag and upgrades the last-seen identifier's
outcome to ValidationFailed when it is still Error or Unknown; in
particular the two-line log of the claim yields
perItem 999 = ValidationFailed and anyValidationFail = true for the chunk
[999]. -/
theorem c6_validation_upgrade :
    (∀ (st : ParsedLog) (line : String),
        matchResult line.data = none →
        matchValidationId line.data = none →
        (containsLit "Staged file validation failed".data line.data = true ∨
         containsLit "Missing update files".data line.data = true) →
        (stepLine st line).globalValidationFail = true ∧
        (¬ st.lastId = "" →
          (mapGet st.perItem st.lastId = some SkinResult.Error ∨
           mapGet st.perItem st.lastId = some SkinResult.Unknown) →
          mapGet (stepLine st line).perItem st.lastId =
            some SkinResult.ValidationFailed)) ∧
    (mapGet (parseSteamCmdLog
        ["[AppID 252490] Download item 999 result : Failure",
         "Staged file validation failed (13 missing files)"] ["999"]).perItem "999" =
       some SkinResult.ValidationFailed ∧
     (parseSteamCmdLog
        ["[AppID 252490] Download item 999 result : Failure",
         "Staged file validation failed (13 missing files)"]
        ["999"]).globalValidationFail = true) := by
  constructor
  · intro st line h1 h2 h3
    have hcond : (containsLit "Staged file validation failed".data line.data ||
        containsLit "Missing update files".data line.data) = true := by
      rcases h3 with h | h <;> simp [h]
    have hstep : stepLine st line =
        { st with globalValidationFail := true,
                  perItem := upgradeLast st SkinResult.ValidationFailed } := by
      simp only [stepLine, h1, h2, hcond, if_true]
    rw [hstep]
    refine ⟨rfl, fun hne hEU => ?_⟩
    show mapGet (upgradeLast st SkinResult.ValidationFailed) st.lastId = _
    unfold upgradeLast
    rw [if_pos ⟨hne, hEU⟩]
    exact mapGet_mapSet_self st.perItem st.lastId SkinResult.ValidationFailed
  · constructor
    · decide
    · decide

theorem c6_witness :
    (stepLine
      { perItem := [("42", SkinResult.Error)], globalRateLimit := false,
        globalTimeout := false, globalLockFailed := false,
        globalValidationFail := false, successCount := 0, failureCount := 1,
        lastId := "42" } "Missing update files").globalValidationFail = true ∧
    mapGet (stepLine
      { perItem := [("42", SkinResult.Error)], globalRateLimit := false,
        globalTimeout := false, globalLockFailed := false,
        globalValidationFail := false, successCount := 0, failureCount := 1,
        lastId := "42" } "Missing update files").perItem "42" =
      some SkinResult.ValidationFailed := by
  have h := c6_validation_upgrade.1
    { perItem := [("42", SkinResult.Error)], globalRateLimit := false,
      globalTimeout := false, globalLockFailed := false,
      globalValidationFail := false, successCount := 0, failureCount := 1,
      lastId := "42" } "Missing update files" (by decide) (by decide)
    (Or.inr (by decide))
  exact ⟨h.1, h.2 (by decide) (Or.inl (by decide))⟩

/-
Lemmas for the input-parser claim.
-/

theorem scanLine_unfold (l : List Char) :
    scanLine l = match matchIdAt l with
      | none => []
      | some p => p.1 :: scanLine p.2 := by
  rw [scanLine]
  cases hm : matchIdAt l with
  | none => rfl
  | some p => rfl

theorem scanOk_unfold (l : List Char) :
    scanOk l = match matchIdAt l with
      | none => true
      | some p => headNotDigit p.2 && scanOk p.2 := by
  rw [scanOk]
  cases hm : matchIdAt l with
  | none => rfl
  | some p => rfl

theorem takeWhile_append_drop_tw (p : Char → Bool) (l : List Char) :
    l.takeWhile p ++ l.drop (l.takeWhile p).length = l := by
  induction l with
  | nil => rfl
  | cons a l ih =>
    rw [List.takeWhile_cons]
    by_cases h : p a = true
    · rw [if_pos h]
      simpa using ih
    · rw [if_neg h]
      rfl

theorem mem_takeWhile_digit (l : List Char) (a : Char)
    (h : a ∈ l.takeWhile Char.isDigit) : a.isDigit = true := by
  induction l with
  | nil => simp [List.takeWhile] at h
  | cons c rest ih =>
    rw [List.takeWhile_cons] at h
    by_cases hc : c.isDigit = true
    · rw [if_pos hc] at h
      rcases List.mem_cons.mp h with h' | h'
      · rw [h']; exact hc
      · exact ih h'
    · rw [if_neg hc] at h
      simp at h

theorem specScan_skip (d tail : List Char) (hd : ∀ ch ∈ d, ch.isDigit = true)
    (ht : headNotDigit tail = true) :
    specScan (d ++ '"' :: tail) = specScan tail := by
  induction d with
  | nil =>
    have htw : tail.takeWhile Char.isDigit = [] := by
      cases tail with
      | nil => rfl
      | cons c t =>
        have h0 : (!c.isDigit) = true := ht
        have hcd : c.isDigit = false := by
          cases hcd : c.isDigit
          · rfl
          · rw [hcd] at h0
            exact absurd h0 (by decide)
        rw [List.takeWhile_cons, if_neg (by simp [hcd])]
    simp [specScan, htw]
  | cons ch d ih =>
    have hch : ch.isDigit = true := hd ch (List.mem_cons_self _ _)
    have hne : ¬ ch = '"' := by
      intro he
      rw [he] at hch
      exact absurd hch (by decide)
    rw [List.cons_append, specScan.eq_def]
    simp only [if_neg hne]
    exact ih (fun a ha => hd a (List.mem_cons_of_mem _ ha))

theorem scanLine_eq_specScan (n : Nat) :
    ∀ l : List Char, l.length ≤ n → scanOk l = true → scanLine l = specScan l := by
  induction n with
  | zero =>
    intro l hl _
    have hnil : l = [] := List.length_eq_zero.mp (Nat.le_zero.mp hl)
    subst hnil
    rw [scanLine_unfold]
    rfl
  | succ n ih =>
    intro l hl hok
    cases l with
    | nil =>
      rw [scanLine_unfold]
      rfl
    | cons c rest =>
      by_cases hc : c = '"'
      · subst hc
        by_cases hcond : 6 ≤ (rest.takeWhile Char.isDigit).length ∧
            (rest.takeWhile Char.isDigit).length ≤ 12 ∧
            (rest.drop (rest.takeWhile Char.isDigit).length).head? = some '"'
        · have hmi : matchIdAt ('"' :: rest) =
              some (String.mk (rest.takeWhile Char.isDigit),
                (rest.drop (rest.takeWhile Char.isDigit).length).drop 1) := by
            simp [matchIdAt, hcond]
          obtain ⟨tail, htail⟩ :
              ∃ tail, rest.drop (rest.takeWhile Char.isDigit).length = '"' :: tail := by
            cases hr2 : rest.drop (rest.takeWhile Char.isDigit).length with
            | nil =>
              rw [hr2] at hcond
              simp at hcond
            | cons x xs =>
              have hx := hcond.2.2
              rw [hr2] at hx
              simp only [List.head?, Option.some.injEq] at hx
              exact ⟨xs, by rw [hx]⟩
          rw [htail] at hmi
          simp only [List.drop_succ_cons, List.drop_zero] at hmi
          have hokk : (headNotDigit tail && scanOk tail) = true := by
            have h0 := hok
            rw [scanOk_unfold, hmi] at h0
            exact h0
          rw [Bool.and_eq_true] at hokk
          have hnd : headNotDigit tail = true := hokk.1
          have hok2 : scanOk tail = true := hokk.2
          have hrest : rest = rest.takeWhile Char.isDigit ++ '"' :: tail := by
            conv_lhs => rw [← takeWhile_append_drop_tw Char.isDigit rest]
            rw [htail]
          have hlen : tail.length ≤ n := by
            have h1 : ('"' :: tail).length ≤ rest.length := by
              rw [← htail]
              simp [List.length_drop]
            simp only [List.length_cons] at h1 hl
            omega
          have hiht : scanLine tail = specScan tail := ih tail hlen hok2
          have hskip : specScan rest = specScan tail := by
            conv_lhs => rw [hrest]
            exact specScan_skip _ tail (mem_takeWhile_digit rest) hnd
          have hspec2 : specScan ('"' :: rest) =
              String.mk (rest.takeWhile Char.isDigit) :: specScan rest := by
            rw [specScan.eq_def]
            simp only [if_pos hcond, if_true, eq_self_iff_true]
          rw [scanLine_unfold, hmi]
          show String.mk (rest.takeWhile Char.isDigit) :: scanLine tail =
            specScan ('"' :: rest)
          rw [hspec2, hiht, hskip]
        · have hmi : matchIdAt ('"' :: rest) = matchIdAt rest := by
            rw [matchIdAt.eq_def]
            simp only [if_neg hcond, if_true, eq_self_iff_true]
          have hline : scanLine ('"' :: rest) = scanLine rest := by
            rw [scanLine_unfold, hmi, ← scanLine_unfold]
          have hokr : scanOk rest = true := by
            rw [scanOk_unfold, ← hmi, ← scanOk_unfold]
            exact hok
          have hspec : specScan ('"' :: rest) = specScan rest := by
            rw [specScan.eq_def]
            simp only [if_neg hcond, if_true, eq_self_iff_true]
          rw [hline, hspec]
          exact ih rest (by simp only [List.length_cons] at hl; omega) hokr
      · have hmi : matchIdAt (c :: rest) = matchIdAt rest := by
          simp [matchIdAt, hc]
        have hline : scanLine (c :: rest) = scanLine rest := by
          rw [scanLine_unfold, hmi, ← scanLine_unfold]
        have hokr : scanOk rest = true := by
          rw [scanOk_unfold, ← hmi, ← scanOk_unfold]
          exact hok
        have hspec : specScan (c :: rest) = specScan rest := by
          rw [specScan.eq_def]
          simp only [if_neg hc]
        rw [hline, hspec]
        exact ih rest (by simp only [List.length_cons] at hl; omega) hokr

/-- Claim C7, counterexample: in `"123456"234567"` the run 234567 is
delimited by double quotes, but the source's scan resumes after the first
match's closing quote and misses it, so `parseIds` does not return all
quote-delimited 6-12 digit runs. -/
theorem c7_counterexample :
    parseIdsModel ["\"123456\"234567\""] ≠ specIdsRuns ["\"123456\"234567\""] := by
  have h1 : scanLine "\"123456\"234567\"".data = ["123456"] := by
    rw [scanLine_unfold,
      show matchIdAt "\"123456\"234567\"".data =
        some ("123456", "234567\"".data) from by decide]
    show "123456" :: scanLine "234567\"".data = _
    rw [scanLine_unfold, show matchIdAt "234567\"".data = none from by decide]
  have h2 : parseIdsModel ["\"123456\"234567\""] = ["123456"] := by
    unfold parseIdsModel
    rw [List.map_cons, List.map_nil, h1]
    decide
  rw [h2]
  decide

/-- Claim C7 as amended: for every input in which no match's closing quote
is immediately followed by another digit (no two quote-delimited runs share
a delimiting quote), the parser returns exactly the maximal quote-delimited
decimal-digit runs of length 6-12, first occurrences only, in input
order. -/
theorem c7_ids_agree (lines : List String)
    (h : ∀ l ∈ lines, scanOk l.data = true) :
    parseIdsModel lines = specIdsRuns lines := by
  unfold parseIdsModel specIdsRuns
  have hmap : lines.map (fun s => scanLine s.data) =
      lines.map (fun s => specScan s.data) := by
    apply List.map_congr_left
    intro l hm
    exact scanLine_eq_specScan l.data.length l.data le_rfl (h l hm)
  rw [hmap]

theorem c7_witness :
    (∀ l ∈ ["\"490217825\": \"example\""], scanOk l.data = true) ∧
    parseIdsModel ["\"490217825\": \"example\""] =
      specIdsRuns ["\"490217825\": \"example\""] := by
  have hok : scanOk "\"490217825\": \"example\"".data = true := by
    rw [scanOk_unfold,
      show matchIdAt "\"490217825\": \"example\"".data =
        some ("490217825", ": \"example\"".data) from by decide]
    show (headNotDigit (": \"example\"".data) && scanOk (": \"example\"".data)) = true
    rw [scanOk_unfold, show matchIdAt ": \"example\"".data = none from by decide]
    decide
  have hyp : ∀ l ∈ ["\"490217825\": \"example\""], scanOk l.data = true := by
    intro l hm
    rw [List.mem_singleton] at hm
    rw [hm]
    exact hok
  exact ⟨hyp, c7_ids_agree ["\"490217825\": \"example\""] hyp⟩

/-- Claim C4, counterexample: with 8 requested instances the code
dispatches pass 2 with max(1, 8/2) = 4 and pass 3 again with 4, not with
4/2 = 2; a retry pass does not halve the concurrency of the immediately
preceding pass. -/
theorem c4_counterexample :
    ¬ (passConcurrency 8 3 = max 1 (passConcurrency 8 2 / 2)) := by decide

/-- Claim C4 as amended: every retry pass (pass number at least 2) is
dispatched with half the concurrency of the initial pass, floored at 1 -
`max 1 (maxInstances / 2)` - which is the same value for every retry
pass. -/
theorem c4_retry_concurrency (m k : Nat) (h : 2 ≤ k) :
    passConcurrency m k = max 1 (passConcurrency m 1 / 2) := by
  have hk : ¬ k = 1 := by omega
  simp [passConcurrency, retryConcurrency, hk]

theorem c4_witness :
    (2 ≤ 3) ∧ passConcurrency 8 3 = max 1 (passConcurrency 8 1 / 2) :=
  ⟨by decide, c4_retry_concurrency 8 3 (by decide)⟩

/-
Lemmas for the partitioner claim.
-/

theorem sum_range_div_mod (n q r : Nat) :
    ((List.range n).map (fun i => q + if i < r then 1 else 0)).sum =
      n * q + min r n := by
  induction n with
  | zero => simp
  | succ n ih =>
    rw [List.range_succ, List.map_append, List.sum_append, ih]
    simp only [List.map_cons, List.map_nil, List.sum_cons, List.sum_nil]
    rw [Nat.succ_mul]
    by_cases h : n < r
    · rw [if_pos h]
      have h1 : min r n = n := by omega
      have h2 : min r (n + 1) = n + 1 := by omega
      rw [h1, h2]
      omega
    · rw [if_neg h]
      have h1 : min r n = r := by omega
      have h2 : min r (n + 1) = r := by omega
      rw [h1, h2]
      omega

theorem partitionSizes_sum (len n : Nat) (h : 0 < n) :
    (partitionSizes len n).sum = len := by
  unfold partitionSizes
  rw [sum_range_div_mod]
  have h1 : len % n < n := Nat.mod_lt _ h
  have h2 : min (len % n) n = len % n := by omega
  rw [h2]
  have h3 := Nat.div_add_mod len n
  omega

theorem takeChunks_length (l : List String) (szs : List Nat) :
    (takeChunks l szs).length = szs.length := by
  induction szs generalizing l with
  | nil => rfl
  | cons sz rest ih => simp [takeChunks, ih]

theorem takeChunks_flatten (l : List String) (szs : List Nat)
    (h : szs.sum = l.length) :
    (takeChunks l szs).flatten = l := by
  induction szs generalizing l with
  | nil =>
    simp only [takeChunks, List.flatten_nil]
    simp only [List.sum_nil] at h
    exact (List.length_eq_zero.mp h.symm).symm
  | cons sz rest ih =>
    simp only [takeChunks, List.flatten_cons]
    have hrest : rest.sum = (l.drop sz).length := by
      simp only [List.length_drop, List.sum_cons] at h ⊢
      omega
    rw [ih (l.drop sz) hrest]
    exact List.take_append_drop sz l

theorem takeChunks_mem_length (l : List String) (szs : List Nat)
    (h : szs.sum ≤ l.length) (c : List String) (hc : c ∈ takeChunks l szs) :
    ∃ sz ∈ szs, c.length = sz := by
  induction szs generalizing l with
  | nil => simp [takeChunks] at hc
  | cons sz rest ih =>
    simp only [takeChunks, List.mem_cons] at hc
    rcases hc with hc | hc
    · refine ⟨sz, List.mem_cons_self _ _, ?_⟩
      rw [hc, List.length_take]
      simp only [List.sum_cons] at h
      omega
    · have h2 : rest.sum ≤ (l.drop sz).length := by
        simp only [List.length_drop, List.sum_cons] at h ⊢
        omega
      obtain ⟨s, hs, he⟩ := ih (l.drop sz) h2 hc
      exact ⟨s, List.mem_cons_of_mem _ hs, he⟩

theorem partitionSizes_mem (len n sz : Nat) (h : sz ∈ partitionSizes len n) :
    sz = len / n ∨ sz = len / n + 1 := by
  unfold partitionSizes at h
  simp only [List.mem_map, List.mem_range] at h
  obtain ⟨i, _, he⟩ := h
  by_cases hi : i < len % n
  · right
    rw [← he, if_pos hi]
  · left
    rw [← he, if_neg hi]
    rfl

/-- Claim C8: for a non-empty working set and requested concurrency at
least 1, `runPass` partitions the working set into `min(N, |workingSet|)`
chunks whose in-order concatenation is the working set and whose sizes
differ pairwise by at most one. -/
theorem c8_partition (ids : List String) (n : Nat) (hne : ids ≠ [])
    (hn : 1 ≤ n) :
    (runPassChunks ids n).length = min n ids.length ∧
    (runPassChunks ids n).flatten = ids ∧
    (∀ c1 ∈ runPassChunks ids n, ∀ c2 ∈ runPassChunks ids n,
      c1.length ≤ c2.length + 1) := by
  have hlen : 0 < ids.length := List.length_pos.mpr hne
  have hpos : 0 < min n ids.length := by omega
  have hsum : (partitionSizes ids.length (min n ids.length)).sum = ids.length :=
    partitionSizes_sum _ _ hpos
  refine ⟨?_, ?_, ?_⟩
  · unfold runPassChunks partitionIds
    rw [takeChunks_length]
    simp [partitionSizes]
  · exact takeChunks_flatten _ _ hsum
  · intro c1 h1 c2 h2
    obtain ⟨s1, hs1, he1⟩ := takeChunks_mem_length _ _ (le_of_eq hsum) c1 h1
    obtain ⟨s2, hs2, he2⟩ := takeChunks_mem_length _ _ (le_of_eq hsum) c2 h2
    rcases partitionSizes_mem _ _ _ hs1 with h | h <;>
      rcases partitionSizes_mem _ _ _ hs2 with h' | h' <;> omega

theorem c8_witness :
    ((["100000", "100001", "100002"] : List String) ≠ []) ∧ (1 ≤ 2) ∧
    ((runPassChunks ["100000", "100001", "100002"] 2).length =
        min 2 (["100000", "100001", "100002"] : List String).length ∧
      (runPassChunks ["100000", "100001", "100002"] 2).flatten =
        ["100000", "100001", "100002"] ∧
      (∀ c1 ∈ runPassChunks ["100000", "100001", "100002"] 2,
        ∀ c2 ∈ runPassChunks ["100000", "100001", "100002"] 2,
        c1.length ≤ c2.length + 1)) :=
  ⟨by decide, by decide,
   c8_partition ["100000", "100001", "100002"] 2 (by decide) (by decide)⟩

/-- Claim C9: when every all-digit content-tree subdirectory that has
files is already present in both manifest sections, the patcher's queue of
entries to add is empty and the manifest is not rewritten: a second run
with no new content on disk leaves the file byte-identical. -/
theorem c9_patcher_idempotent (lines : List String) (entries : List DiskDir)
    (h : ∀ e ∈ entries, isAllDigits e.name = true → e.hasFiles = true →
      (parseAcf lines).installedIds.contains e.name = true ∧
      (parseAcf lines).detailsIds.contains e.name = true) :
    collectToAdd (parseAcf lines) entries = [] ∧
    (∀ out, patcherRun lines entries = some out → out = lines) := by
  have hc : collectToAdd (parseAcf lines) entries = [] := by
    unfold collectToAdd
    rw [List.filterMap_eq_nil_iff]
    intro e hm
    cases h1 : isAllDigits e.name with
    | false => simp [h1]
    | true =>
      cases h2 : e.hasFiles with
      | false => simp [h1, h2]
      | true =>
        obtain ⟨hi, hd⟩ := h e hm h1 h2
        simp [h1, h2, hi, hd]
        exact ⟨by simpa using hi, by simpa using hd⟩
  refine ⟨hc, fun out hout => ?_⟩
  simp only [patcherRun, hc] at hout
  split_ifs at hout <;> simp_all

theorem c9_witness :
    (∀ e ∈ [diskSample], isAllDigits e.name = true → e.hasFiles = true →
      (parseAcf acfSampleBoth).installedIds.contains e.name = true ∧
      (parseAcf acfSampleBoth).detailsIds.contains e.name = true) ∧
    (collectToAdd (parseAcf acfSampleBoth) [diskSample] = [] ∧
      (∀ out, patcherRun acfSampleBoth [diskSample] = some out →
        out = acfSampleBoth)) :=
  ⟨by decide, c9_patcher_idempotent acfSampleBoth [diskSample] (by decide)⟩

/-- Claim C3, code bug (part_000 lines 629-639): for a manifest in which
the WorkshopItemDetails section precedes WorkshopItemsInstalled, the
splice takes the else branch, inserts the installed entries at the higher
index first - which leaves the lower details index unshifted - but then
still adds the installed insert's length to the details index ("adjust
for the shift"), so the details entries are inserted six lines below the
details closing brace, inside the installed insert, instead of
immediately before it.  The output differs from the splice the claim
describes, even though both section closing indices were found (7 and
4). -/
theorem c3_details_first_misplaced :
    (parseAcf acfDetailsFirst).installedCloseLineIdx = 7 ∧
    (parseAcf acfDetailsFirst).detailsCloseLineIdx = 4 ∧
    patcherRun acfDetailsFirst [diskNine] ≠
      some (specSpliceTwo acfDetailsFirst 7 4
        (installedInsertLines (parseAcf acfDetailsFirst)
          (collectToAdd (parseAcf acfDetailsFirst) [diskNine]))
        (detailsInsertLines (parseAcf acfDetailsFirst)
          (collectToAdd (parseAcf acfDetailsFirst) [diskNine]))) :=
  ⟨by decide, by decide, by decide⟩

end Downloader
